import Mathlib

/-!
Verification of the Personal/Persona data-management layer and the message
font store of the repository.

The embedding follows the source files:
- `src/lib/models/personal-model.ts` and the persona model file: the record
  types `Personal`, `PersonalSettings`, `Persona`, `PersonaSettings`.
- `src/lib/data/roleplay/personal-operation.ts`: the CRUD operations, in both
  the Personal and the Persona variant.  Each function that in TypeScript
  reads the collection with `readData` and writes it back with `writeData` is
  embedded as a pure function on the collection (a `List`), or on a state
  record combining the collection with the singleton settings record when the
  operation touches both.  `new Date().toISOString()` is passed in as an
  explicit `now : String` parameter.
- `src/contexts/MessageFontStore.ts`: `loadGoogleFont` over a state holding
  the `loadedFonts` set and the ids of the `<link>` elements appended to
  `document.head`.

JavaScript `Record<string, string>` objects are embedded as association lists
`List (String × String)`; a string is truthy iff it is non-empty, and the
embedding keeps the truthiness tests of the source (`if (personalId)`,
`filtered[0]?.id || null`) explicit as emptiness tests.
-/

/-- Record type of `src/lib/models/personal-model.ts` (`interface Personal`). -/
structure Personal where
  id : String
  name : String
  description : String
  personality : String
  avatar : Option String
  isDefault : Bool
  createdAt : String
  updatedAt : String
deriving Repr, DecidableEq

/-- Record type `PersonalSettings` of `src/lib/models/personal-model.ts`;
`characterPersonalMap : Record<string, string>` becomes an association list. -/
structure PersonalSettings where
  defaultPersonalId : Option String
  characterPersonalMap : List (String × String)
deriving Repr, DecidableEq

/-- Record type of the persona model (`interface Persona`); it is the
`Personal` record without the `personality` field. -/
structure Persona where
  id : String
  name : String
  description : String
  avatar : Option String
  isDefault : Bool
  createdAt : String
  updatedAt : String
deriving Repr, DecidableEq

/-- Record type `PersonaSettings` of the persona model. -/
structure PersonaSettings where
  defaultPersonaId : Option String
  characterPersonaMap : List (String × String)
deriving Repr, DecidableEq

/-- The persisted state of the Personal half of
`src/lib/data/roleplay/personal-operation.ts`: the `PERSONAL_FILE` collection
together with the `PERSONAL_SETTINGS_FILE` singleton. -/
structure PersonalState where
  personals : List Personal
  settings : PersonalSettings
deriving Repr, DecidableEq

/-- The persisted state of the Persona half of the operations file. -/
structure PersonaState where
  personas : List Persona
  settings : PersonaSettings
deriving Repr, DecidableEq

/-- Assignment `m[k] = v` on a JavaScript record: overwrite the value of an
existing key in place, otherwise add the key at the end. -/
def recordSet (m : List (String × String)) (k v : String) : List (String × String) :=
  if m.any (fun kv => kv.1 == k) then
    m.map (fun kv => if kv.1 == k then (k, v) else kv)
  else
    m ++ [(k, v)]

/-- Deletion `delete m[k]` on a JavaScript record. -/
def recordDelete (m : List (String × String)) (k : String) : List (String × String) :=
  m.filter (fun kv => kv.1 != k)

/-- Truthiness of a nullable JavaScript string: non-null and non-empty. -/
def optTruthy : Option String → Bool
  | some s => s != ""
  | none => false

/-- The `forEach` body of `savePersonal`: clear `isDefault` on every entity
whose id differs from the saved one. -/
def clearOtherPersonal (savedId : String) (p : Personal) : Personal :=
  if p.id != savedId then { p with isDefault := false } else p

/-- Embedding of `getPersonalById` of `personal-operation.ts`: `find` on the collection,
`null` when absent. -/
def getPersonalById (id : String) (personals : List Personal) : Option Personal :=
  personals.find? (fun p => p.id == id)

/-- Embedding of `getDefaultPersonal` of `personal-operation.ts`:
`personals.find(p => p.isDefault) || personals[0] || null`. -/
def getDefaultPersonal (personals : List Personal) : Option Personal :=
  match personals.find? (fun p => p.isDefault) with
  | some p => some p
  | none => personals.head?

/-- Embedding of `savePersonal` of `personal-operation.ts`, acting on the collection:
refresh `updatedAt`, replace the entity at the index found by `findIndex`
(or push it), and if the saved entity is default clear the flag on every
entity with a different id. -/
def savePersonalList (personal : Personal) (now : String) (personals : List Personal) :
    List Personal :=
  let personal' := { personal with updatedAt := now }
  let upserted :=
    match personals.findIdx? (fun p => p.id == personal.id) with
    | some index => personals.set index personal'
    | none => personals ++ [personal']
  if personal.isDefault then
    upserted.map (clearOtherPersonal personal.id)
  else
    upserted

/-- Embedding of `deletePersonal` of `personal-operation.ts`, acting on the full state:
filter the collection by id, promote `filtered[0]` to default when the
remainder is non-empty and has no default, then fix the settings record
(`defaultPersonalId` re-elected as `filtered[0]?.id || null` when it pointed
at the deleted id; map entries whose value is the deleted id removed). -/
def deletePersonalState (id : String) (st : PersonalState) : PersonalState :=
  let filtered := st.personals.filter (fun p => p.id != id)
  let personals' :=
    if filtered.length > 0 && !(filtered.any (fun p => p.isDefault)) then
      match filtered with
      | [] => []
      | f :: rest => { f with isDefault := true } :: rest
    else
      filtered
  let defaultId' :=
    if st.settings.defaultPersonalId = some id then
      match personals'.head? with
      | some f => if f.id == "" then none else some f.id
      | none => none
    else
      st.settings.defaultPersonalId
  { personals := personals',
    settings :=
      { defaultPersonalId := defaultId',
        characterPersonalMap :=
          st.settings.characterPersonalMap.filter (fun kv => kv.2 != id) } }

/-- Embedding of `setDefaultPersonal` of `personal-operation.ts`: every entity gets
`isDefault := (p.id === id)` and a fresh timestamp, and the settings record's
`defaultPersonalId` is set to `id`. -/
def setDefaultPersonalState (id : String) (now : String) (st : PersonalState) : PersonalState :=
  { personals := st.personals.map (fun p => { p with isDefault := p.id == id, updatedAt := now }),
    settings := { st.settings with defaultPersonalId := some id } }

/-- Embedding of `getPersonalForCharacter` of `personal-operation.ts`: look up the
character's entry in `characterPersonalMap`; if the value is truthy resolve it
by id, otherwise fall back to the default entity. -/
def getPersonalForCharacter (characterId : String) (st : PersonalState) : Option Personal :=
  match st.settings.characterPersonalMap.lookup characterId with
  | some personalId =>
      if personalId == "" then getDefaultPersonal st.personals
      else getPersonalById personalId st.personals
  | none => getDefaultPersonal st.personals

/-- Embedding of `setPersonalForCharacter` of `personal-operation.ts`: a truthy id is
stored in the map, a null (or empty) id deletes the entry. -/
def setPersonalForCharacter (characterId : String) (personalId : Option String)
    (settings : PersonalSettings) : PersonalSettings :=
  if optTruthy personalId then
    { settings with
        characterPersonalMap :=
          recordSet settings.characterPersonalMap characterId (personalId.getD "") }
  else
    { settings with
        characterPersonalMap := recordDelete settings.characterPersonalMap characterId }

/-- The `forEach` body of `savePersona`, Persona variant. -/
def clearOtherPersona (savedId : String) (p : Persona) : Persona :=
  if p.id != savedId then { p with isDefault := false } else p

/-- Embedding of `getPersonaById` of `personal-operation.ts`, Persona variant. -/
def getPersonaById (id : String) (personas : List Persona) : Option Persona :=
  personas.find? (fun p => p.id == id)

/-- Embedding of `getDefaultPersona` of `personal-operation.ts`, Persona variant. -/
def getDefaultPersona (personas : List Persona) : Option Persona :=
  match personas.find? (fun p => p.isDefault) with
  | some p => some p
  | none => personas.head?

/-- Embedding of `savePersona` of `personal-operation.ts`, Persona variant. -/
def savePersonaList (persona : Persona) (now : String) (personas : List Persona) :
    List Persona :=
  let persona' := { persona with updatedAt := now }
  let upserted :=
    match personas.findIdx? (fun p => p.id == persona.id) with
    | some index => personas.set index persona'
    | none => personas ++ [persona']
  if persona.isDefault then
    upserted.map (clearOtherPersona persona.id)
  else
    upserted

/-- Embedding of `deletePersona` of `personal-operation.ts`, Persona variant. -/
def deletePersonaState (id : String) (st : PersonaState) : PersonaState :=
  let filtered := st.personas.filter (fun p => p.id != id)
  let personas' :=
    if filtered.length > 0 && !(filtered.any (fun p => p.isDefault)) then
      match filtered with
      | [] => []
      | f :: rest => { f with isDefault := true } :: rest
    else
      filtered
  let defaultId' :=
    if st.settings.defaultPersonaId = some id then
      match personas'.head? with
      | some f => if f.id == "" then none else some f.id
      | none => none
    else
      st.settings.defaultPersonaId
  { personas := personas',
    settings :=
      { defaultPersonaId := defaultId',
        characterPersonaMap :=
          st.settings.characterPersonaMap.filter (fun kv => kv.2 != id) } }

/-- Embedding of `setDefaultPersona` of `personal-operation.ts`, Persona variant. -/
def setDefaultPersonaState (id : String) (now : String) (st : PersonaState) : PersonaState :=
  { personas := st.personas.map (fun p => { p with isDefault := p.id == id, updatedAt := now }),
    settings := { st.settings with defaultPersonaId := some id } }

/-- Embedding of `getPersonaForCharacter` of `personal-operation.ts`, Persona variant. -/
def getPersonaForCharacter (characterId : String) (st : PersonaState) : Option Persona :=
  match st.settings.characterPersonaMap.lookup characterId with
  | some personaId =>
      if personaId == "" then getDefaultPersona st.personas
      else getPersonaById personaId st.personas
  | none => getDefaultPersona st.personas

/-- Embedding of `setPersonaForCharacter` of `personal-operation.ts`, Persona variant. -/
def setPersonaForCharacter (characterId : String) (personaId : Option String)
    (settings : PersonaSettings) : PersonaSettings :=
  if optTruthy personaId then
    { settings with
        characterPersonaMap :=
          recordSet settings.characterPersonaMap characterId (personaId.getD "") }
  else
    { settings with
        characterPersonaMap := recordDelete settings.characterPersonaMap characterId }

/-- State of `MessageFontStore.ts` relevant to font loading: the
`loadedFonts` set (as a list of family names) and the ids of the stylesheet
`<link>` elements appended to `document.head`, in order. -/
structure FontState where
  loadedFonts : List String
  headLinks : List String
deriving Repr, DecidableEq

/-- Core of `fontName.replace(/\s+/g, "+")`: collapse every maximal run of
whitespace characters into a single `+`.  The boolean accumulator records
whether the previous character was whitespace. -/
def collapseWsAux : Bool → List Char → List Char
  | _, [] => []
  | prevWs, c :: rest =>
    if c.isWhitespace then
      (if prevWs then [] else ['+']) ++ collapseWsAux true rest
    else
      c :: collapseWsAux false rest

/-- Embedding of `fontName.replace(/\s+/g, "+")` of `loadGoogleFont`. -/
def formatFontName (s : String) : String :=
  ⟨collapseWsAux false s.data⟩

/-- The id of the injected link element: `google-font-` followed by the
formatted family name. -/
def googleFontLinkId (fontName : String) : String :=
  "google-font-" ++ formatFontName fontName

/-- Embedding of `loadGoogleFont` of `src/contexts/MessageFontStore.ts`: a falsy (empty)
name is a no-op, an already loaded family is a no-op, otherwise a link
element is appended to `document.head` unless one with the same id already
exists, and the family is added to `loadedFonts`. -/
def loadGoogleFont (fontName : String) (st : FontState) : FontState :=
  if fontName == "" then st
  else if fontName ∈ st.loadedFonts then st
  else
    let linkId := googleFontLinkId fontName
    { loadedFonts := fontName :: st.loadedFonts,
      headLinks :=
        if linkId ∈ st.headLinks then st.headLinks else st.headLinks ++ [linkId] }

/-- Concrete `Personal` record used in witnesses and counterexamples. -/
def cPersonal (i : String) (d : Bool) : Personal :=
  { id := i, name := "", description := "", personality := "", avatar := none,
    isDefault := d, createdAt := "t0", updatedAt := "t0" }

/-- Concrete `Persona` record used in witnesses and counterexamples. -/
def cPersona (i : String) (d : Bool) : Persona :=
  { id := i, name := "", description := "", avatar := none,
    isDefault := d, createdAt := "t0", updatedAt := "t0" }

section Helpers

variable {α : Type}

/-- Replace the first element satisfying `f` by `e'`, or append `e'` when no
element does: the combined effect of `findIndex` followed by an indexed
assignment or a `push`. -/
def upsertFirstBy (f : α → Bool) (e' : α) : List α → List α
  | [] => [e']
  | p :: rest => if f p then e' :: rest else p :: upsertFirstBy f e' rest

theorem findIdx_set_eq_upsertFirstBy (f : α → Bool) (e' : α) (l : List α) :
    (match l.findIdx? f with
     | some i => l.set i e'
     | none => l ++ [e']) = upsertFirstBy f e' l := by
  induction l with
  | nil => rfl
  | cons p rest ih =>
    cases h : f p with
    | true => simp [List.findIdx?_cons, h, upsertFirstBy]
    | false =>
      rw [upsertFirstBy, List.findIdx?_cons, h]
      simp only [Bool.false_eq_true, if_false, List.findIdx?_succ]
      cases hr : rest.findIdx? f with
      | none =>
        rw [hr] at ih
        simpa using ih
      | some j =>
        rw [hr] at ih
        simpa using ih

theorem upsertFirstBy_of_forall_not (f : α → Bool) (e' : α) (l : List α)
    (h : ∀ x ∈ l, f x = false) : upsertFirstBy f e' l = l ++ [e'] := by
  induction l with
  | nil => rfl
  | cons p rest ih =>
    rw [upsertFirstBy, h p (by simp)]
    simp only [Bool.false_eq_true, if_false, List.cons_append, List.cons.injEq, true_and]
    exact ih (fun x hx => h x (by simp [hx]))

theorem length_upsertFirstBy_of_exists (f : α → Bool) (e' : α) (l : List α)
    (h : ∃ x ∈ l, f x = true) : (upsertFirstBy f e' l).length = l.length := by
  induction l with
  | nil => simp at h
  | cons p rest ih =>
    rw [upsertFirstBy]
    cases hp : f p with
    | true => simp
    | false =>
      obtain ⟨x, hx, hfx⟩ := h
      rcases List.mem_cons.mp hx with rfl | hx'
      · rw [hp] at hfx; cases hfx
      · simpa using ih ⟨x, hx', hfx⟩

theorem countP_upsertFirstBy (f q : α → Bool) (e' : α) (l : List α)
    (hq : q e' = true) (himp : ∀ x, q x = true → f x = true)
    (hc : l.countP f ≤ 1) : (upsertFirstBy f e' l).countP q = 1 := by
  induction l with
  | nil => simp [upsertFirstBy, List.countP_cons, hq]
  | cons p rest ih =>
    rw [upsertFirstBy]
    cases hp : f p with
    | true =>
      have hrest : rest.countP f = 0 := by
        rw [List.countP_cons, hp] at hc
        simp only [if_true] at hc
        omega
      have hrq : rest.countP q = 0 := by
        rw [List.countP_eq_zero] at hrest ⊢
        intro a ha hqa
        exact hrest a ha (himp a (by simpa using hqa))
      simp [List.countP_cons, hq, hrq]
    | false =>
      have hqp : q p = false := by
        cases hqp : q p with
        | false => rfl
        | true => rw [himp p hqp] at hp; cases hp
      have hc' : rest.countP f ≤ 1 := by
        rw [List.countP_cons, hp] at hc
        simpa using hc
      simp [List.countP_cons, hqp, ih hc']

theorem countP_le_one_of_nodup_map (g : α → String) (a : String) (l : List α)
    (h : (l.map g).Nodup) : l.countP (fun x => g x == a) ≤ 1 := by
  induction l with
  | nil => simp
  | cons p rest ih =>
    rw [List.map_cons, List.nodup_cons] at h
    obtain ⟨hnot, hrest⟩ := h
    cases hp : (g p == a) with
    | false => simpa [List.countP_cons, hp] using ih hrest
    | true =>
      have hpa : g p = a := by simpa using hp
      have hz : rest.countP (fun x => g x == a) = 0 := by
        rw [List.countP_eq_zero]
        intro x hx hgx
        exact hnot (by rw [← hpa] at hgx; exact (List.mem_map.mpr ⟨x, hx, by simpa using hgx.symm⟩)) 
      simp [List.countP_cons, hp, hz]

theorem getElem_set_of_findIdx (f : α → Bool) (l : List α) (i : Nat) (a : α)
    (h : l.findIdx? f = some i) : (l.set i a)[i]? = some a := by
  induction l generalizing i with
  | nil => simp at h
  | cons p rest ih =>
    rw [List.findIdx?_cons] at h
    cases hp : f p with
    | true =>
      rw [hp] at h
      simp only [if_true] at h
      cases h
      simp
    | false =>
      rw [hp] at h
      simp only [Bool.false_eq_true, if_false, List.findIdx?_succ, Option.map_eq_some'] at h
      obtain ⟨j, hj, rfl⟩ := h
      simpa using ih j hj

theorem lookup_recordDelete (m : List (String × String)) (c : String) :
    (recordDelete m c).lookup c = none := by
  induction m with
  | nil => rfl
  | cons kv rest ih =>
    obtain ⟨k, v⟩ := kv
    by_cases hk : k = c
    · simpa [recordDelete, List.filter_cons, hk] using ih
    · have h2 : (c == k) = false := by simp [Ne.symm hk]
      have h1 : ((k, v).1 != c) = true := by simp [hk]
      unfold recordDelete at ih ⊢
      rw [List.filter_cons, if_pos h1, List.lookup_cons, h2]
      exact ih

theorem find?_append_first (f : α → Bool) (l₁ l₂ : List α) (p : α)
    (h₁ : ∀ q ∈ l₁, f q = false) (hp : f p = true) :
    (l₁ ++ p :: l₂).find? f = some p := by
  induction l₁ with
  | nil => simp [List.find?_cons, hp]
  | cons q rest ih =>
    rw [List.cons_append, List.find?_cons, h₁ q (by simp)]
    exact ih (fun x hx => h₁ x (by simp [hx]))

theorem find?_of_exists (f : α → Bool) (l : List α)
    (h : ∃ x ∈ l, f x = true) : ∃ y, l.find? f = some y := by
  cases hf : l.find? f with
  | some y => exact ⟨y, rfl⟩
  | none =>
    obtain ⟨x, hx, hfx⟩ := h
    have := List.find?_eq_none.mp hf x hx
    rw [hfx] at this
    exact absurd rfl this

end Helpers

section UpsertBridge

variable {α : Type}

theorem set_findIdx_eq_upsert (f : α → Bool) (e' : α) (l : List α) (i : Nat)
    (h : l.findIdx? f = some i) : l.set i e' = upsertFirstBy f e' l := by
  have h2 := findIdx_set_eq_upsertFirstBy f e' l
  rw [h] at h2
  simpa using h2

theorem append_eq_upsert (f : α → Bool) (e' : α) (l : List α)
    (h : l.findIdx? f = none) : l ++ [e'] = upsertFirstBy f e' l := by
  have h2 := findIdx_set_eq_upsertFirstBy f e' l
  rw [h] at h2
  simpa using h2

end UpsertBridge

theorem savePersonalList_eq (e : Personal) (now : String) (l : List Personal) :
    savePersonalList e now l =
      if e.isDefault then
        (upsertFirstBy (fun p => p.id == e.id) { e with updatedAt := now } l).map
          (clearOtherPersonal e.id)
      else
        upsertFirstBy (fun p => p.id == e.id) { e with updatedAt := now } l := by
  cases h : l.findIdx? (fun p => p.id == e.id) with
  | some i =>
    simp only [savePersonalList, h]
    rw [set_findIdx_eq_upsert _ _ _ _ h]
  | none =>
    simp only [savePersonalList, h]
    rw [append_eq_upsert _ _ _ h]

theorem savePersonaList_eq (e : Persona) (now : String) (l : List Persona) :
    savePersonaList e now l =
      if e.isDefault then
        (upsertFirstBy (fun p => p.id == e.id) { e with updatedAt := now } l).map
          (clearOtherPersona e.id)
      else
        upsertFirstBy (fun p => p.id == e.id) { e with updatedAt := now } l := by
  cases h : l.findIdx? (fun p => p.id == e.id) with
  | some i =>
    simp only [savePersonaList, h]
    rw [set_findIdx_eq_upsert _ _ _ _ h]
  | none =>
    simp only [savePersonaList, h]
    rw [append_eq_upsert _ _ _ h]

theorem countP_isDefault_clearOtherPersonal (eid : String) (m : List Personal) :
    (m.map (clearOtherPersonal eid)).countP (fun p => p.isDefault) =
      m.countP (fun p => p.id == eid && p.isDefault) := by
  rw [List.countP_map]
  apply List.countP_congr
  intro p _
  by_cases hp : p.id = eid
  · simp [clearOtherPersonal, hp, Function.comp]
  · simp [clearOtherPersonal, hp, Function.comp]

theorem countP_isDefault_clearOtherPersona (eid : String) (m : List Persona) :
    (m.map (clearOtherPersona eid)).countP (fun p => p.isDefault) =
      m.countP (fun p => p.id == eid && p.isDefault) := by
  rw [List.countP_map]
  apply List.countP_congr
  intro p _
  by_cases hp : p.id = eid
  · simp [clearOtherPersona, hp, Function.comp]
  · simp [clearOtherPersona, hp, Function.comp]

/-- Claim C1, amended: after `savePersonal e` (resp. `savePersona e`) the
resulting collection has exactly one default entity, provided the saved
entity has `isDefault = true` and the prior collection has pairwise distinct
ids.  (Saving a non-default entity does not establish the invariant: see the
corresponding counterexample.) -/
theorem claimC1 :
    (∀ (e : Personal) (now : String) (l : List Personal),
        e.isDefault = true → (l.map Personal.id).Nodup →
        (savePersonalList e now l).countP (fun p => p.isDefault) = 1) ∧
    (∀ (e : Persona) (now : String) (l : List Persona),
        e.isDefault = true → (l.map Persona.id).Nodup →
        (savePersonaList e now l).countP (fun p => p.isDefault) = 1) := by
  constructor
  · intro e now l hd hn
    rw [savePersonalList_eq, if_pos hd, countP_isDefault_clearOtherPersonal]
    exact countP_upsertFirstBy _ _ _ _ (by simp [hd])
      (fun x hx => (Bool.and_eq_true_iff.mp hx).1)
      (countP_le_one_of_nodup_map Personal.id e.id l hn)
  · intro e now l hd hn
    rw [savePersonaList_eq, if_pos hd, countP_isDefault_clearOtherPersona]
    exact countP_upsertFirstBy _ _ _ _ (by simp [hd])
      (fun x hx => (Bool.and_eq_true_iff.mp hx).1)
      (countP_le_one_of_nodup_map Persona.id e.id l hn)

/-- Witness for the amended claim C1 at a concrete input. -/
theorem claimC1_witness :
    (savePersonalList (cPersonal "x" true) "t1" [cPersonal "y" true]).countP
      (fun p => p.isDefault) = 1 :=
  claimC1.1 (cPersonal "x" true) "t1" [cPersonal "y" true] rfl (by decide)

/-- Counterexample to claim C1 as stated: saving a non-default entity into an
empty collection yields a non-empty collection in which no entity has
`isDefault = true` (this is exactly what `createNewPersonal` does on a fresh
store, since `createEmptyPersonal` sets `isDefault: false`). -/
theorem claimC1_cex :
    savePersonalList (cPersonal "x" false) "t1" [] ≠ [] ∧
    (savePersonalList (cPersonal "x" false) "t1" []).countP (fun p => p.isDefault) ≠ 1 := by
  decide

theorem length_savePersonalList (e : Personal) (now : String) (l : List Personal) :
    (savePersonalList e now l).length =
      (upsertFirstBy (fun p => p.id == e.id) { e with updatedAt := now } l).length := by
  rw [savePersonalList_eq]
  by_cases hd : e.isDefault = true
  · rw [if_pos hd, List.length_map]
  · rw [if_neg hd]

theorem length_savePersonaList (e : Persona) (now : String) (l : List Persona) :
    (savePersonaList e now l).length =
      (upsertFirstBy (fun p => p.id == e.id) { e with updatedAt := now } l).length := by
  rw [savePersonaList_eq]
  by_cases hd : e.isDefault = true
  · rw [if_pos hd, List.length_map]
  · rw [if_neg hd]

/-- Claim C8: `savePersonal` (resp. `savePersona`) is an upsert by id with
timestamp refresh: replacing in place when an entity with the saved id
exists (length unchanged, the entity at the found index becomes the saved
entity with `updatedAt := now`), appending otherwise (length grows by one,
the appended last element is the saved entity with `updatedAt := now`), and
when the saved entity is default every entity with a different id loses its
`isDefault` flag. -/
theorem claimC8 :
    (∀ (e : Personal) (now : String) (l : List Personal),
        ((∃ p ∈ l, p.id = e.id) → (savePersonalList e now l).length = l.length) ∧
        ((∀ p ∈ l, p.id ≠ e.id) →
          (savePersonalList e now l).length = l.length + 1 ∧
          (savePersonalList e now l).getLast? = some { e with updatedAt := now }) ∧
        (∀ i, l.findIdx? (fun p => p.id == e.id) = some i →
          (savePersonalList e now l)[i]? = some { e with updatedAt := now }) ∧
        (e.isDefault = true →
          ∀ q ∈ savePersonalList e now l, q.id ≠ e.id → q.isDefault = false)) ∧
    (∀ (e : Persona) (now : String) (l : List Persona),
        ((∃ p ∈ l, p.id = e.id) → (savePersonaList e now l).length = l.length) ∧
        ((∀ p ∈ l, p.id ≠ e.id) →
          (savePersonaList e now l).length = l.length + 1 ∧
          (savePersonaList e now l).getLast? = some { e with updatedAt := now }) ∧
        (∀ i, l.findIdx? (fun p => p.id == e.id) = some i →
          (savePersonaList e now l)[i]? = some { e with updatedAt := now }) ∧
        (e.isDefault = true →
          ∀ q ∈ savePersonaList e now l, q.id ≠ e.id → q.isDefault = false)) := by
  constructor
  · intro e now l
    refine ⟨?_, ?_, ?_, ?_⟩
    · intro ⟨p, hp, hid⟩
      rw [length_savePersonalList]
      exact length_upsertFirstBy_of_exists _ _ _ ⟨p, hp, by simpa using hid⟩
    · intro hall
      have hu : upsertFirstBy (fun p => p.id == e.id) { e with updatedAt := now } l =
          l ++ [{ e with updatedAt := now }] :=
        upsertFirstBy_of_forall_not _ _ _ (fun x hx => by simpa using hall x hx)
      constructor
      · rw [length_savePersonalList, hu]
        simp
      · rw [savePersonalList_eq]
        by_cases hd : e.isDefault = true
        · rw [if_pos hd, hu, List.map_append]
          simp [clearOtherPersonal, List.getLast?_concat]
        · rw [if_neg hd, hu, List.getLast?_concat]
    · intro i hi
      simp only [savePersonalList, hi]
      by_cases hd : e.isDefault = true
      · rw [if_pos hd, List.getElem?_map, getElem_set_of_findIdx _ _ _ _ hi]
        simp [clearOtherPersonal]
      · rw [if_neg hd, getElem_set_of_findIdx _ _ _ _ hi]
    · intro hd q hq hne
      rw [savePersonalList_eq, if_pos hd] at hq
      obtain ⟨r, _, rfl⟩ := List.mem_map.mp hq
      by_cases h : r.id = e.id
      · have hr : clearOtherPersonal e.id r = r := by simp [clearOtherPersonal, h]
        rw [hr] at hne
        exact absurd h hne
      · simp [clearOtherPersonal, h]
  · intro e now l
    refine ⟨?_, ?_, ?_, ?_⟩
    · intro ⟨p, hp, hid⟩
      rw [length_savePersonaList]
      exact length_upsertFirstBy_of_exists _ _ _ ⟨p, hp, by simpa using hid⟩
    · intro hall
      have hu : upsertFirstBy (fun p => p.id == e.id) { e with updatedAt := now } l =
          l ++ [{ e with updatedAt := now }] :=
        upsertFirstBy_of_forall_not _ _ _ (fun x hx => by simpa using hall x hx)
      constructor
      · rw [length_savePersonaList, hu]
        simp
      · rw [savePersonaList_eq]
        by_cases hd : e.isDefault = true
        · rw [if_pos hd, hu, List.map_append]
          simp [clearOtherPersona, List.getLast?_concat]
        · rw [if_neg hd, hu, List.getLast?_concat]
    · intro i hi
      simp only [savePersonaList, hi]
      by_cases hd : e.isDefault = true
      · rw [if_pos hd, List.getElem?_map, getElem_set_of_findIdx _ _ _ _ hi]
        simp [clearOtherPersona]
      · rw [if_neg hd, getElem_set_of_findIdx _ _ _ _ hi]
    · intro hd q hq hne
      rw [savePersonaList_eq, if_pos hd] at hq
      obtain ⟨r, _, rfl⟩ := List.mem_map.mp hq
      by_cases h : r.id = e.id
      · have hr : clearOtherPersona e.id r = r := by simp [clearOtherPersona, h]
        rw [hr] at hne
        exact absurd h hne
      · simp [clearOtherPersona, h]

/-- Witness for claim C8 at a concrete input: appending into the empty
collection yields a one-element collection. -/
theorem claimC8_witness :
    (savePersonalList (cPersonal "a" true) "t1" []).length = 1 := by
  have h := ((claimC8.1 (cPersonal "a" true) "t1" []).2.1 (by simp)).1
  simpa using h

theorem deletePersonalState_personals_promote (d : String) (st : PersonalState)
    (f : Personal) (rest : List Personal)
    (hfr : st.personals.filter (fun p => p.id != d) = f :: rest)
    (hnodef : ∀ q ∈ f :: rest, q.isDefault = false) :
    (deletePersonalState d st).personals = { f with isDefault := true } :: rest := by
  have hany : (f :: rest).any (fun p => p.isDefault) = false :=
    List.any_eq_false.mpr (fun x hx => by simp [hnodef x hx])
  simp only [deletePersonalState]
  rw [hfr]
  simp [hany]

theorem deletePersonaState_personas_promote (d : String) (st : PersonaState)
    (f : Persona) (rest : List Persona)
    (hfr : st.personas.filter (fun p => p.id != d) = f :: rest)
    (hnodef : ∀ q ∈ f :: rest, q.isDefault = false) :
    (deletePersonaState d st).personas = { f with isDefault := true } :: rest := by
  have hany : (f :: rest).any (fun p => p.isDefault) = false :=
    List.any_eq_false.mpr (fun x hx => by simp [hnodef x hx])
  simp only [deletePersonaState]
  rw [hfr]
  simp [hany]

/-- Claim C2, amended: if the entity with id `d` is the unique default and at
least one other entity exists, `deletePersonal d` (resp. `deletePersona d`)
removes every entity with id `d` and sets `isDefault = true` on the first
remaining entity.  (Without uniqueness of the default the promotion does not
happen: see the corresponding counterexample.) -/
theorem claimC2 :
    (∀ (st : PersonalState) (d : String),
        (∃ p ∈ st.personals, p.id = d ∧ p.isDefault = true) →
        (∀ p ∈ st.personals, p.isDefault = true → p.id = d) →
        (∃ p ∈ st.personals, p.id ≠ d) →
        (∀ q ∈ (deletePersonalState d st).personals, q.id ≠ d) ∧
        ∃ f rest, st.personals.filter (fun p => p.id != d) = f :: rest ∧
          (deletePersonalState d st).personals = { f with isDefault := true } :: rest) ∧
    (∀ (st : PersonaState) (d : String),
        (∃ p ∈ st.personas, p.id = d ∧ p.isDefault = true) →
        (∀ p ∈ st.personas, p.isDefault = true → p.id = d) →
        (∃ p ∈ st.personas, p.id ≠ d) →
        (∀ q ∈ (deletePersonaState d st).personas, q.id ≠ d) ∧
        ∃ f rest, st.personas.filter (fun p => p.id != d) = f :: rest ∧
          (deletePersonaState d st).personas = { f with isDefault := true } :: rest) := by
  constructor
  · intro st d _ huniq hother
    have hne : st.personals.filter (fun p => p.id != d) ≠ [] := by
      obtain ⟨p, hp, hpid⟩ := hother
      exact List.ne_nil_of_mem (List.mem_filter.mpr ⟨hp, by simpa using hpid⟩)
    obtain ⟨f, rest, hfr⟩ := List.exists_cons_of_ne_nil hne
    have hnodef : ∀ q ∈ f :: rest, q.isDefault = false := by
      intro q hq
      rw [← hfr] at hq
      obtain ⟨hqmem, hqid⟩ := List.mem_filter.mp hq
      cases hqd : q.isDefault with
      | false => rfl
      | true => exact absurd (huniq q hqmem hqd) (by simpa using hqid)
    have hres := deletePersonalState_personals_promote d st f rest hfr hnodef
    constructor
    · intro q hq
      rw [hres] at hq
      rcases List.mem_cons.mp hq with rfl | hq'
      · have hmem : f ∈ f :: rest := by simp
        rw [← hfr] at hmem
        have := (List.mem_filter.mp hmem).2
        simpa using this
      · have hmem : q ∈ f :: rest := by simp [hq']
        rw [← hfr] at hmem
        have := (List.mem_filter.mp hmem).2
        simpa using this
    · exact ⟨f, rest, hfr, hres⟩
  · intro st d _ huniq hother
    have hne : st.personas.filter (fun p => p.id != d) ≠ [] := by
      obtain ⟨p, hp, hpid⟩ := hother
      exact List.ne_nil_of_mem (List.mem_filter.mpr ⟨hp, by simpa using hpid⟩)
    obtain ⟨f, rest, hfr⟩ := List.exists_cons_of_ne_nil hne
    have hnodef : ∀ q ∈ f :: rest, q.isDefault = false := by
      intro q hq
      rw [← hfr] at hq
      obtain ⟨hqmem, hqid⟩ := List.mem_filter.mp hq
      cases hqd : q.isDefault with
      | false => rfl
      | true => exact absurd (huniq q hqmem hqd) (by simpa using hqid)
    have hres := deletePersonaState_personas_promote d st f rest hfr hnodef
    constructor
    · intro q hq
      rw [hres] at hq
      rcases List.mem_cons.mp hq with rfl | hq'
      · have hmem : f ∈ f :: rest := by simp
        rw [← hfr] at hmem
        have := (List.mem_filter.mp hmem).2
        simpa using this
      · have hmem : q ∈ f :: rest := by simp [hq']
        rw [← hfr] at hmem
        have := (List.mem_filter.mp hmem).2
        simpa using this
    · exact ⟨f, rest, hfr, hres⟩

/-- Witness for claim C2: the spec's own example.  Given personas
`[{id:"a", isDefault:true}, {id:"b"}]`, `deletePersona "a"` yields
`[{id:"b", isDefault:true}]`. -/
theorem claimC2_witness :
    (deletePersonaState "a"
        { personas := [cPersona "a" true, cPersona "b" false],
          settings := { defaultPersonaId := none, characterPersonaMap := [] } }).personas =
      [{ cPersona "b" false with isDefault := true }] := by
  obtain ⟨-, f, rest, hfr, hres⟩ :=
    claimC2.2
      { personas := [cPersona "a" true, cPersona "b" false],
        settings := { defaultPersonaId := none, characterPersonaMap := [] } }
      "a" ⟨cPersona "a" true, by decide⟩ (by decide) ⟨cPersona "b" false, by decide⟩
  have hcomp : [cPersona "a" true, cPersona "b" false].filter (fun p => p.id != "a") =
      [cPersona "b" false] := by decide
  rw [hcomp] at hfr
  injection hfr with h1 h2
  subst h1
  subst h2
  exact hres

/-- Counterexample to claim C2 as stated: in a collection where the deleted
entity with id `a` is default but another entity `c` is also default, the
first remaining entity `b` is not promoted (`deletePersona` only promotes
when no default remains), so the result keeps `b.isDefault = false`. -/
theorem claimC2_cex :
    (deletePersonaState "a"
        { personas := [cPersona "a" true, cPersona "b" false, cPersona "c" true],
          settings := { defaultPersonaId := none, characterPersonaMap := [] } }).personas =
      [cPersona "b" false, cPersona "c" true] := by
  decide

/-- Claim C3, amended: after `deletePersonal d` (resp. `deletePersona d`)
every `characterEntityMap` entry whose value is `d` is removed and all other
entries are kept; and if `defaultEntityId` equalled `d` it is replaced by the
id of the first remaining entity when that id is non-empty, or by null when
the remaining collection is empty.  (When the first remaining entity's id is
the empty string the code stores null, not that id: see the corresponding
counterexample.) -/
theorem claimC3 :
    (∀ (st : PersonalState) (d : String),
        (∀ kv ∈ (deletePersonalState d st).settings.characterPersonalMap, kv.2 ≠ d) ∧
        (∀ kv ∈ st.settings.characterPersonalMap, kv.2 ≠ d →
          kv ∈ (deletePersonalState d st).settings.characterPersonalMap) ∧
        (st.settings.defaultPersonalId = some d →
          ∀ f, (deletePersonalState d st).personals.head? = some f → f.id ≠ "" →
            (deletePersonalState d st).settings.defaultPersonalId = some f.id) ∧
        (st.settings.defaultPersonalId = some d →
          (deletePersonalState d st).personals = [] →
          (deletePersonalState d st).settings.defaultPersonalId = none)) ∧
    (∀ (st : PersonaState) (d : String),
        (∀ kv ∈ (deletePersonaState d st).settings.characterPersonaMap, kv.2 ≠ d) ∧
        (∀ kv ∈ st.settings.characterPersonaMap, kv.2 ≠ d →
          kv ∈ (deletePersonaState d st).settings.characterPersonaMap) ∧
        (st.settings.defaultPersonaId = some d →
          ∀ f, (deletePersonaState d st).personas.head? = some f → f.id ≠ "" →
            (deletePersonaState d st).settings.defaultPersonaId = some f.id) ∧
        (st.settings.defaultPersonaId = some d →
          (deletePersonaState d st).personas = [] →
          (deletePersonaState d st).settings.defaultPersonaId = none)) := by
  constructor
  · intro st d
    have hm : (deletePersonalState d st).settings.characterPersonalMap =
        st.settings.characterPersonalMap.filter (fun kv => kv.2 != d) := rfl
    refine ⟨?_, ?_, ?_, ?_⟩
    · intro kv hkv
      rw [hm] at hkv
      have := (List.mem_filter.mp hkv).2
      simpa using this
    · intro kv hkv hne
      rw [hm]
      exact List.mem_filter.mpr ⟨hkv, by simpa using hne⟩
    · intro hdef f hhead hfid
      simp only [deletePersonalState] at hhead ⊢
      rw [if_pos hdef, hhead]
      simp [hfid]
    · intro hdef hempty
      have hhead : (deletePersonalState d st).personals.head? = none := by
        rw [hempty]
        rfl
      simp only [deletePersonalState] at hhead ⊢
      rw [if_pos hdef, hhead]
  · intro st d
    have hm : (deletePersonaState d st).settings.characterPersonaMap =
        st.settings.characterPersonaMap.filter (fun kv => kv.2 != d) := rfl
    refine ⟨?_, ?_, ?_, ?_⟩
    · intro kv hkv
      rw [hm] at hkv
      have := (List.mem_filter.mp hkv).2
      simpa using this
    · intro kv hkv hne
      rw [hm]
      exact List.mem_filter.mpr ⟨hkv, by simpa using hne⟩
    · intro hdef f hhead hfid
      simp only [deletePersonaState] at hhead ⊢
      rw [if_pos hdef, hhead]
      simp [hfid]
    · intro hdef hempty
      have hhead : (deletePersonaState d st).personas.head? = none := by
        rw [hempty]
        rfl
      simp only [deletePersonaState] at hhead ⊢
      rw [if_pos hdef, hhead]

/-- Witness for claim C3: deleting the default entity `d` from
`[d (default), b]`, with settings pointing at `d` and two character mappings,
prunes the mapping to `d` and re-elects `b` as `defaultPersonalId`. -/
theorem claimC3_witness :
    (deletePersonalState "d"
        { personals := [cPersonal "d" true, cPersonal "b" false],
          settings := { defaultPersonalId := some "d",
                        characterPersonalMap := [("c1", "d"), ("c2", "b")] } }).settings.defaultPersonalId =
      some "b" ∧
    ("c2", "b") ∈ (deletePersonalState "d"
        { personals := [cPersonal "d" true, cPersonal "b" false],
          settings := { defaultPersonalId := some "d",
                        characterPersonalMap := [("c1", "d"), ("c2", "b")] } }).settings.characterPersonalMap := by
  constructor
  · have h := (claimC3.1
      { personals := [cPersonal "d" true, cPersonal "b" false],
        settings := { defaultPersonalId := some "d",
                      characterPersonalMap := [("c1", "d"), ("c2", "b")] } } "d").2.2.1
    exact h rfl { cPersonal "b" false with isDefault := true } (by decide) (by decide)
  · have h := (claimC3.1
      { personals := [cPersonal "d" true, cPersonal "b" false],
        settings := { defaultPersonalId := some "d",
                      characterPersonalMap := [("c1", "d"), ("c2", "b")] } } "d").2.1
    exact h ("c2", "b") (by decide) (by decide)

/-- Counterexample to claim C3 as stated: deleting `d` from a collection
whose remaining first entity has the empty string as id leaves
`defaultPersonalId = none` (because of `filtered[0]?.id || null`), not the id
of the first remaining entity. -/
theorem claimC3_cex :
    (deletePersonalState "d"
        { personals := [cPersonal "d" true, cPersonal "" false],
          settings := { defaultPersonalId := some "d",
                        characterPersonalMap := [] } }).personals.map Personal.id = [""] ∧
    (deletePersonalState "d"
        { personals := [cPersonal "d" true, cPersonal "" false],
          settings := { defaultPersonalId := some "d",
                        characterPersonalMap := [] } }).settings.defaultPersonalId = none := by
  decide

/-- Claim C4, amended: when the settings map sends the character to a
non-empty id `i` and some entity has id `i`, `getPersonalForCharacter`
(resp. `getPersonaForCharacter`) returns the first entity with id `i`; when
no mapping is present it returns the result of `getDefaultPersonal` (resp.
`getDefaultPersona`).  (A mapping whose value is the empty string is treated
as absent by the code and falls back to the default: see the corresponding
counterexample.) -/
theorem claimC4 :
    (∀ (st : PersonalState) (c i : String),
        (st.settings.characterPersonalMap.lookup c = some i → i ≠ "" →
          (∃ e ∈ st.personals, e.id = i) →
          ∃ e, getPersonalForCharacter c st = some e ∧ e ∈ st.personals ∧ e.id = i) ∧
        (st.settings.characterPersonalMap.lookup c = none →
          getPersonalForCharacter c st = getDefaultPersonal st.personals)) ∧
    (∀ (st : PersonaState) (c i : String),
        (st.settings.characterPersonaMap.lookup c = some i → i ≠ "" →
          (∃ e ∈ st.personas, e.id = i) →
          ∃ e, getPersonaForCharacter c st = some e ∧ e ∈ st.personas ∧ e.id = i) ∧
        (st.settings.characterPersonaMap.lookup c = none →
          getPersonaForCharacter c st = getDefaultPersona st.personas)) := by
  constructor
  · intro st c i
    constructor
    · intro hl hne hex
      obtain ⟨y, hy⟩ := find?_of_exists (fun p => p.id == i) st.personals
        (by obtain ⟨e, he, hei⟩ := hex; exact ⟨e, he, by simpa using hei⟩)
      refine ⟨y, ?_, List.mem_of_find?_eq_some hy, by simpa using List.find?_some hy⟩
      simp only [getPersonalForCharacter, hl]
      simp [hne, getPersonalById, hy]
    · intro hl
      simp only [getPersonalForCharacter, hl]
  · intro st c i
    constructor
    · intro hl hne hex
      obtain ⟨y, hy⟩ := find?_of_exists (fun p => p.id == i) st.personas
        (by obtain ⟨e, he, hei⟩ := hex; exact ⟨e, he, by simpa using hei⟩)
      refine ⟨y, ?_, List.mem_of_find?_eq_some hy, by simpa using List.find?_some hy⟩
      simp only [getPersonaForCharacter, hl]
      simp [hne, getPersonaById, hy]
    · intro hl
      simp only [getPersonaForCharacter, hl]

/-- Witness for claim C4: a mapped character resolves to the mapped entity. -/
theorem claimC4_witness :
    getPersonalForCharacter "c"
        { personals := [cPersonal "x" false],
          settings := { defaultPersonalId := none, characterPersonalMap := [("c", "x")] } } =
      some (cPersonal "x" false) := by
  obtain ⟨e, he, hmem, -⟩ :=
    (claimC4.1
      { personals := [cPersonal "x" false],
        settings := { defaultPersonalId := none, characterPersonalMap := [("c", "x")] } }
      "c" "x").1 (by decide) (by decide) ⟨cPersonal "x" false, by decide, rfl⟩
  rw [he, List.mem_singleton.mp hmem]

/-- Counterexample to claim C4 as stated: the map sends `"c"` to the empty
string and an entity with the empty id exists, yet the function ignores the
mapping (the empty string is falsy) and returns the default entity `"b"`
instead of the mapped one. -/
theorem claimC4_cex :
    getPersonalForCharacter "c"
        { personals := [cPersonal "" false, cPersonal "b" true],
          settings := { defaultPersonalId := none, characterPersonalMap := [("c", "")] } } =
      some (cPersonal "b" true) ∧
    getPersonalById "" [cPersonal "" false, cPersonal "b" true] = some (cPersonal "" false) := by
  decide

/-- Claim C5, amended: when the settings map sends the character to a
non-empty id `i` and no entity has id `i`, `getPersonalForCharacter`
(resp. `getPersonaForCharacter`) returns null rather than falling back to
the default.  (For the empty-string id the code does fall back to the
default: see the corresponding counterexample.) -/
theorem claimC5 :
    (∀ (st : PersonalState) (c i : String),
        st.settings.characterPersonalMap.lookup c = some i → i ≠ "" →
        (∀ e ∈ st.personals, e.id ≠ i) →
        getPersonalForCharacter c st = none) ∧
    (∀ (st : PersonaState) (c i : String),
        st.settings.characterPersonaMap.lookup c = some i → i ≠ "" →
        (∀ e ∈ st.personas, e.id ≠ i) →
        getPersonaForCharacter c st = none) := by
  constructor
  · intro st c i hl hne hall
    simp only [getPersonalForCharacter, hl]
    have hib : (i == "") = false := by simpa using hne
    rw [if_neg (by simp [hib])]
    unfold getPersonalById
    rw [List.find?_eq_none]
    intro x hx
    simp [hall x hx]
  · intro st c i hl hne hall
    simp only [getPersonaForCharacter, hl]
    have hib : (i == "") = false := by simpa using hne
    rw [if_neg (by simp [hib])]
    unfold getPersonaById
    rw [List.find?_eq_none]
    intro x hx
    simp [hall x hx]

/-- Witness for claim C5: a dangling mapping to `"zzz"` makes the lookup
return null although a default entity exists. -/
theorem claimC5_witness :
    getPersonalForCharacter "c"
        { personals := [cPersonal "b" true],
          settings := { defaultPersonalId := none, characterPersonalMap := [("c", "zzz")] } } =
      none :=
  claimC5.1
    { personals := [cPersonal "b" true],
      settings := { defaultPersonalId := none, characterPersonalMap := [("c", "zzz")] } }
    "c" "zzz" (by decide) (by decide) (by decide)

/-- Counterexample to claim C5 as stated: the map sends `"c"` to the empty
string, no entity has the empty id, yet the result is the default entity
`"b"`, not null (the empty string is falsy, so the mapping is ignored). -/
theorem claimC5_cex :
    ([cPersona "b" true].all (fun e => e.id != "")) = true ∧
    getPersonaForCharacter "c"
        { personas := [cPersona "b" true],
          settings := { defaultPersonaId := none, characterPersonaMap := [("c", "")] } } =
      some (cPersona "b" true) := by
  decide

/-- Claim C6: `setPersonalForCharacter c null` (resp.
`setPersonaForCharacter c null`) removes the character's entry from the map,
and a subsequent `getPersonalForCharacter c` (resp. `getPersonaForCharacter
c`) returns the default entity. -/
theorem claimC6 :
    (∀ (st : PersonalState) (c : String),
        (setPersonalForCharacter c none st.settings).characterPersonalMap.lookup c = none ∧
        getPersonalForCharacter c
            { st with settings := setPersonalForCharacter c none st.settings } =
          getDefaultPersonal st.personals) ∧
    (∀ (st : PersonaState) (c : String),
        (setPersonaForCharacter c none st.settings).characterPersonaMap.lookup c = none ∧
        getPersonaForCharacter c
            { st with settings := setPersonaForCharacter c none st.settings } =
          getDefaultPersona st.personas) := by
  constructor
  · intro st c
    have hl : (setPersonalForCharacter c none st.settings).characterPersonalMap.lookup c = none :=
      lookup_recordDelete st.settings.characterPersonalMap c
    refine ⟨hl, ?_⟩
    simp only [getPersonalForCharacter, hl]
  · intro st c
    have hl : (setPersonaForCharacter c none st.settings).characterPersonaMap.lookup c = none :=
      lookup_recordDelete st.settings.characterPersonaMap c
    refine ⟨hl, ?_⟩
    simp only [getPersonaForCharacter, hl]

/-- Claim C7: `getDefaultPersonal` (resp. `getDefaultPersona`) returns null
on the empty collection, the first element when no entity is flagged default,
and the first entity flagged default when one exists. -/
theorem claimC7 :
    ((getDefaultPersonal [] = none) ∧
     (∀ l : List Personal, l ≠ [] → (∀ p ∈ l, p.isDefault = false) →
        getDefaultPersonal l = l.head?) ∧
     (∀ (l₁ l₂ : List Personal) (p : Personal), (∀ q ∈ l₁, q.isDefault = false) →
        p.isDefault = true → getDefaultPersonal (l₁ ++ p :: l₂) = some p)) ∧
    ((getDefaultPersona [] = none) ∧
     (∀ l : List Persona, l ≠ [] → (∀ p ∈ l, p.isDefault = false) →
        getDefaultPersona l = l.head?) ∧
     (∀ (l₁ l₂ : List Persona) (p : Persona), (∀ q ∈ l₁, q.isDefault = false) →
        p.isDefault = true → getDefaultPersona (l₁ ++ p :: l₂) = some p)) := by
  refine ⟨⟨rfl, ?_, ?_⟩, rfl, ?_, ?_⟩
  · intro l _ hall
    have hf : l.find? (fun p => p.isDefault) = none :=
      List.find?_eq_none.mpr (fun x hx => by simp [hall x hx])
    simp only [getDefaultPersonal, hf]
  · intro l₁ l₂ p h₁ hp
    have hf : (l₁ ++ p :: l₂).find? (fun q => q.isDefault) = some p :=
      find?_append_first _ l₁ l₂ p (fun q hq => h₁ q hq) hp
    simp only [getDefaultPersonal, hf]
  · intro l _ hall
    have hf : l.find? (fun p => p.isDefault) = none :=
      List.find?_eq_none.mpr (fun x hx => by simp [hall x hx])
    simp only [getDefaultPersona, hf]
  · intro l₁ l₂ p h₁ hp
    have hf : (l₁ ++ p :: l₂).find? (fun q => q.isDefault) = some p :=
      find?_append_first _ l₁ l₂ p (fun q hq => h₁ q hq) hp
    simp only [getDefaultPersona, hf]

/-- Witness for claim C7: the first flagged entity wins over position. -/
theorem claimC7_witness :
    getDefaultPersonal ([cPersonal "a" false] ++ cPersonal "b" true :: []) =
      some (cPersonal "b" true) :=
  claimC7.1.2.2 [cPersonal "a" false] [] (cPersonal "b" true) (by decide) rfl

/-- Claim C9: `loadGoogleFont` is idempotent per font family.  Calling it a
second time with the same family name is the identity on the store state and
on the document; a single call appends at most one element to
`document.head`; across two calls at most one stylesheet link with the
family's link id is injected. -/
theorem claimC9 :
    ∀ (f : String) (st : FontState),
      loadGoogleFont f (loadGoogleFont f st) = loadGoogleFont f st ∧
      (loadGoogleFont f st).headLinks.length ≤ st.headLinks.length + 1 ∧
      (loadGoogleFont f (loadGoogleFont f st)).headLinks.count (googleFontLinkId f) ≤
        st.headLinks.count (googleFontLinkId f) + 1 := by
  intro f st
  by_cases hf : f = ""
  · subst hf
    refine ⟨rfl, by simp [loadGoogleFont], by simp [loadGoogleFont]⟩
  · have hfb : (f == "") = false := by simpa using hf
    by_cases hmem : f ∈ st.loadedFonts
    · have h0 : loadGoogleFont f st = st := by
        simp [loadGoogleFont, hfb, hmem]
      refine ⟨by rw [h0, h0], by rw [h0]; omega, by rw [h0, h0]; omega⟩
    · have h1 : loadGoogleFont f st =
          { loadedFonts := f :: st.loadedFonts,
            headLinks :=
              if googleFontLinkId f ∈ st.headLinks then st.headLinks
              else st.headLinks ++ [googleFontLinkId f] } := by
        simp [loadGoogleFont, hfb, hmem]
      have h2 : loadGoogleFont f (loadGoogleFont f st) = loadGoogleFont f st := by
        rw [h1]
        simp [loadGoogleFont, hfb]
      refine ⟨h2, ?_, ?_⟩
      · rw [h1]
        by_cases hl : googleFontLinkId f ∈ st.headLinks
        · simp [hl]
        · simp [hl]
      · rw [h2, h1]
        by_cases hl : googleFontLinkId f ∈ st.headLinks
        · simp [hl]
        · simp [hl, List.count_concat_self]

/-- Claim C10: `setDefaultPersonal i` (resp. `setDefaultPersona i`) with an
id absent from the collection leaves no entity flagged default while the
settings record's default id becomes `i`, and every entity's `updatedAt` is
refreshed. -/
theorem claimC10 :
    (∀ (st : PersonalState) (i now : String),
        (∀ p ∈ st.personals, p.id ≠ i) →
        (∀ q ∈ (setDefaultPersonalState i now st).personals,
            q.isDefault = false ∧ q.updatedAt = now) ∧
        (setDefaultPersonalState i now st).settings.defaultPersonalId = some i) ∧
    (∀ (st : PersonaState) (i now : String),
        (∀ p ∈ st.personas, p.id ≠ i) →
        (∀ q ∈ (setDefaultPersonaState i now st).personas,
            q.isDefault = false ∧ q.updatedAt = now) ∧
        (setDefaultPersonaState i now st).settings.defaultPersonaId = some i) := by
  constructor
  · intro st i now hall
    refine ⟨?_, rfl⟩
    intro q hq
    simp only [setDefaultPersonalState] at hq
    obtain ⟨p, hp, rfl⟩ := List.mem_map.mp hq
    exact ⟨by simp [hall p hp], rfl⟩
  · intro st i now hall
    refine ⟨?_, rfl⟩
    intro q hq
    simp only [setDefaultPersonaState] at hq
    obtain ⟨p, hp, rfl⟩ := List.mem_map.mp hq
    exact ⟨by simp [hall p hp], rfl⟩

/-- Witness for claim C10 at a concrete input. -/
theorem claimC10_witness :
    (setDefaultPersonalState "z" "t1"
        { personals := [cPersonal "a" true],
          settings := { defaultPersonalId := some "a",
                        characterPersonalMap := [] } }).settings.defaultPersonalId =
      some "z" :=
  (claimC10.1
    { personals := [cPersonal "a" true],
      settings := { defaultPersonalId := some "a", characterPersonalMap := [] } }
    "z" "t1" (by decide)).2
